import Mathlib

/-
Verification of the Arcbot Discord gateway connector (src/arcbot/Discord.py)
against its natural-language specification.

The embedding models:
  * Python/JSON values (PyVal) as produced by json.loads, plus the
    dynamically created attribute objects produced by event.to_object;
  * the class-level subscription registry of class event, with an explicit
    heap of list cells so that Python list aliasing (in-place .append and
    .remove on a shared list object) is captured faithfully;
  * the gateway message handler handle_gateway_message from
    Discord._message_consumer, the heartbeat loop Discord._heartbeat and
    the socket reader Discord._read_socket.
-/

namespace Arcbot

/-- Python values as they appear in this program: the JSON scalar types,
JSON arrays (Python lists), JSON objects (Python dicts), and the dynamic
attribute objects created by event.to_object via type with a field dict. -/
inductive PyVal where
  | pynone : PyVal
  | bool (b : Bool) : PyVal
  | int (n : Int) : PyVal
  | str (s : String) : PyVal
  | list (xs : List PyVal) : PyVal
  | dict (fs : List (String × PyVal)) : PyVal
  | obj (attrs : List (String × PyVal)) : PyVal

mutual

/-- Discord.py lines 437-446, the inner convert of event.to_object:
a dict becomes a dynamically created object with one attribute per key
(each value converted), a list becomes the list of converted elements,
anything else is returned unchanged. -/
def convert : PyVal → PyVal
  | PyVal.dict fs => PyVal.obj (convertFields fs)
  | PyVal.list xs => PyVal.list (convertList xs)
  | v => v

/-- Element-wise conversion of a Python list (the yield_convert generator,
Discord.py lines 441-444). -/
def convertList : List PyVal → List PyVal
  | [] => []
  | x :: xs => convert x :: convertList xs

/-- Key-wise conversion of a Python dict (the dict comprehension on
Discord.py line 439), preserving key order. -/
def convertFields : List (String × PyVal) → List (String × PyVal)
  | [] => []
  | (k, v) :: fs => (k, convert v) :: convertFields fs

end

/-- Discord.py lines 435-448: classmethod event.to_object. -/
def to_object (item : PyVal) : PyVal := convert item

/-- True exactly on the values hitting the else branch of convert
(neither a Python dict nor a Python list). -/
def notDictOrList : PyVal → Bool
  | PyVal.dict _ => false
  | PyVal.list _ => false
  | _ => true

/-- Reading an attribute of a dynamically created event object
(getattr on the class returned by type on Discord.py line 439);
none on non-objects or missing attributes. -/
def attrLookup (k : String) : PyVal → Option PyVal
  | PyVal.obj attrs => (attrs.find? (fun p => p.1 = k)).map (fun p => p.2)
  | _ => Option.none

/-- Python dict lookup on the modelled association list (first matching
key; Python dicts have unique keys, kept in insertion order). -/
def dictLookup (k : String) (fs : List (String × PyVal)) : Option PyVal :=
  (fs.find? (fun p => p.1 = k)).map (fun p => p.2)

/-- Callback handles are atoms; Python removes and compares them by
identity, modelled as equality of atoms. -/
abbrev Callback := Nat

/-- The class-level registry event.subscriptions (Discord.py line 410).
Python stores a dict from event key to a mutable list object; mutation of
a list is in place and visible through every reference to that list. The
model keeps an explicit heap of list cells and a table mapping each event
key to the index of its cell, so aliasing is explicit. -/
structure Registry where
  heap : List (List Callback)
  table : List (String × Nat)
deriving DecidableEq

/-- The empty registry: the initial value of event.subscriptions. -/
def emptyRegistry : Registry := { heap := [], table := [] }

/-- Index of the list cell a key maps to, if the key is present
(Python: event_id in cls.subscriptions.keys() and the dict lookup). -/
def lookupIdx (reg : Registry) (k : String) : Option Nat :=
  (reg.table.find? (fun p => p.1 = k)).map (fun p => p.2)

/-- Contents of heap cell i (dereferencing a Python list object). -/
def cellGet (heap : List (List Callback)) (i : Nat) : List Callback :=
  heap.getD i []

/-- Discord.py lines 417-424, classmethod event.subscribe: create a fresh
one-element list on first use of the key, otherwise append in place to the
existing list object. -/
def subscribe (reg : Registry) (k : String) (cb : Callback) : Registry :=
  match lookupIdx reg k with
  | Option.none =>
      { heap := reg.heap ++ [[cb]], table := reg.table ++ [(k, reg.heap.length)] }
  | Option.some i =>
      { heap := reg.heap.set i (cellGet reg.heap i ++ [cb]), table := reg.table }

/-- Discord.py lines 412-415, classmethod event.unsubscribe: if the key is
absent the guard fails and nothing happens; if the key is present, Python
calls list.remove, which deletes the first occurrence in place and raises
ValueError when the callback is not in the list. -/
def unsubscribe (reg : Registry) (k : String) (cb : Callback) : Except String Registry :=
  match lookupIdx reg k with
  | Option.none => Except.ok reg
  | Option.some i =>
      if cb ∈ cellGet reg.heap i then
        Except.ok { heap := reg.heap.set i ((cellGet reg.heap i).erase cb), table := reg.table }
      else
        Except.error "ValueError: list.remove(x): x not in list"

/-- The subscriptions field stored on a decoded event: Discord.py line 431
stores cls.subscriptions.get(name, []), i.e. a reference to the live list
object when the key is present, and a fresh list (the default argument)
when it is absent. -/
inductive SubsRef where
  | ptr (i : Nat) : SubsRef
  | fresh (l : List Callback) : SubsRef
deriving DecidableEq

/-- The subscriptions reference a decode of an event with key k obtains
from registry state reg (Discord.py line 431). -/
def eventSubs (reg : Registry) (k : String) : SubsRef :=
  match lookupIdx reg k with
  | Option.some i => SubsRef.ptr i
  | Option.none => SubsRef.fresh []

/-- Dereference a subscriptions reference in a registry state: what the
for loop on Discord.py line 191 actually iterates over at dispatch time. -/
def derefSubs (reg : Registry) : SubsRef → List Callback
  | SubsRef.ptr i => cellGet reg.heap i
  | SubsRef.fresh l => l

/-- The current subscriber list for a key, as a value (empty when the key
is absent): what cls.subscriptions.get(k, []) denotes at a given moment. -/
def resolveList (reg : Registry) (k : String) : List Callback :=
  match lookupIdx reg k with
  | Option.some i => cellGet reg.heap i
  | Option.none => []

/-- Well-formed registry: every table entry points into the heap. Every
registry reachable from emptyRegistry by subscribe and unsubscribe
satisfies this. -/
def WFr (reg : Registry) : Prop :=
  ∀ p ∈ reg.table, p.2 < reg.heap.length

/-- Sequential subscribes of a list of callbacks to one key. -/
def subscribeAll (reg : Registry) (k : String) (cbs : List Callback) : Registry :=
  cbs.foldl (fun r c => subscribe r k c) reg

/-- The member names of the events enum, Discord.py lines 374-407.
getattr(events, t) succeeds exactly for these names. -/
def eventsNames : List String :=
  ["READY", "RESUMED", "CHANNEL_CREATE", "CHANNEL_UPDATE", "CHANNEL_DELETE",
   "CHANNEL_PINS_UPATE", "GUILD_CREATE", "GUILD_UPDATE", "GUILD_DELETE",
   "GUILD_BAN_ADD", "GUILD_BAN_REMOVE", "GUILD_EMOJIS_UPDATE",
   "GUILD_INTEGRATIONS_UPDATE", "GUILD_MEMBER_ADD", "GUILD_MEMBER_REMOVE",
   "GUILD_MEMBER_UPDATE", "GUILD_MEMBERS_CHUNK", "GUILD_ROLE_CREATE",
   "GUILD_ROLE_UPDATE", "GUILD_ROLE_DELETE", "MESSAGE_CREATE",
   "MESSAGE_UPDATE", "MESSAGE_DELETE", "MESSAGE_DELETE_BULK",
   "MESSAGE_REACTION_ADD", "MESSAGE_REACTION_REMOVE",
   "MESSAGE_REACTION_REMOVE_ALL", "PRESENCE_UPDATE", "TYPING_START",
   "USER_UPDATE", "VOICE_STATE_UPDATE", "VOICE_SERVER_UPDATE",
   "WEBHOOKS_UPDATE"]

/-- A decoded gateway frame as the dict json.loads yields: integer opcode
field op, optional integer sequence field s, optional event-name field t,
and payload field d. -/
structure GatewayMessage where
  op : Int
  s : Option Int
  t : Option String
  d : PyVal

/-- A decoded Event, Discord.py lines 426-433: the converted payload
object with the three extra attributes name, sequence and subscriptions
set on it by from_message. The name is kept as the enum member name. -/
structure Event where
  payload : PyVal
  name : String
  sequence : Option Int
  subscriptions : SubsRef

/-- Discord.py lines 426-433, classmethod event.from_message. Returns
none whenever line 429 would raise AttributeError and the exception
escapes from from_message: when the message has no event-name string,
when getattr(events, t) fails (unknown event name), and when the payload
is not a dict — to_object then returns the payload unchanged (None, a
list or a scalar) and the attribute assignments on it raise. Only a dict
payload yields a settable dynamically created object. -/
def from_message (reg : Registry) (msg : GatewayMessage) : Option Event :=
  match msg.t with
  | Option.some t =>
      if t ∈ eventsNames then
        match msg.d with
        | PyVal.dict fs =>
            Option.some
              { payload := to_object (PyVal.dict fs)
                name := t
                sequence := msg.s
                subscriptions := eventSubs reg t }
        | _ => Option.none
      else Option.none
  | Option.none => Option.none

/-- Round-half-to-even of the exact rational m / k, for k > 0: the
semantics of Python round applied to the exact quotient. -/
def roundHalfEven (m k : Nat) : Nat :=
  let q := m / k
  let r := m % k
  if 2 * r < k then q
  else if k < 2 * r then q + 1
  else if q % 2 = 0 then q else q + 1

/-- The microseconds attribute of a Python timedelta built from a
non-negative duration: only the sub-second component, i.e. the total
elapsed microseconds modulo one million (timedelta normalisation). -/
def timedeltaMicroseconds (elapsedMicros : Nat) : Nat :=
  elapsedMicros % 1000000

/-- Discord.py lines 201-202: on a HeartbeatAck the code computes
timedelta(seconds=now - ping_start) and stores
round(ping.microseconds / 1000). Time is modelled in exact integer
microseconds of the monotonic clock. -/
def pingFromElapsed (elapsedMicros : Nat) : Int :=
  (roundHalfEven (timedeltaMicroseconds elapsedMicros) 1000 : Int)

/-- The reference value asserted by the specification for the stored
latency: the full elapsed time now minus the last recorded heartbeat send
time, expressed in milliseconds (rounded from microseconds). -/
def specFullElapsedMs (elapsedMicros : Nat) : Int :=
  (roundHalfEven elapsedMicros 1000 : Int)

/-- The mutable connection state of a Discord instance (Discord.py
lines 35-39 initialise it; ping_start holds the monotonic clock value, in
microseconds, recorded at the last heartbeat send). -/
structure DiscordState where
  connected : Bool
  ping : Int
  sequence : Option Int
  pingStart : Nat
deriving DecidableEq

/-- The fresh-session state set up by Discord.__init__ (lines 35-39):
connected False, ping -1 and sequence 0. -/
def initState : DiscordState :=
  { connected := false, ping := -1, sequence := Option.some 0, pingStart := 0 }

/-- Discord.py lines 184-202, the nested handle_gateway_message of
_message_consumer, at monotonic time now (microseconds). Opcode 0 decodes
the event, stores its sequence and queues one task per callback in the
subscriptions list, in list order; a failed decode (exception escaping
from from_message inside the worker task) leaves the state unchanged and
queues nothing. Opcode 9 clears the connected flag. Opcode 11 stores the
buggy round-trip value computed from timedelta microseconds. Any other
opcode is ignored. -/
def handle_gateway_message (reg : Registry) (now : Nat) (st : DiscordState)
    (msg : GatewayMessage) : DiscordState × List (Callback × Event) :=
  if msg.op = 0 then
    match from_message reg msg with
    | Option.some e =>
        ({ st with sequence := e.sequence },
         (derefSubs reg e.subscriptions).map (fun cb => (cb, e)))
    | Option.none => (st, [])
  else if msg.op = 9 then
    ({ st with connected := false }, [])
  else if msg.op = 11 then
    ({ st with ping := pingFromElapsed (now - st.pingStart) }, [])
  else
    (st, [])

/-- A Dispatch frame with event name t, sequence s and payload d. -/
def dispatchMsg (t : String) (s : Int) (d : PyVal) : GatewayMessage :=
  { op := 0, s := Option.some s, t := Option.some t, d := d }

/-- State transition of one handled frame (the task queued on Discord.py
line 211, executed in order), ignoring the emitted tasks. -/
def stepDispatch (reg : Registry) (st : DiscordState) (m : GatewayMessage) : DiscordState :=
  (handle_gateway_message reg 0 st m).1

/-- Process a list of Dispatch frames (name, sequence, payload) in the
order received. -/
def processFrames (reg : Registry) (st : DiscordState) :
    List (String × Int × PyVal) → DiscordState
  | [] => st
  | f :: fs => processFrames reg (stepDispatch reg st (dispatchMsg f.1 f.2.1 f.2.2)) fs

/-- The trace of stored sequence values (self.sequence) observed before
processing each frame and after the last one. -/
def seqTrace (reg : Registry) (st : DiscordState) :
    List (String × Int × PyVal) → List (Option Int)
  | [] => [st.sequence]
  | f :: fs => st.sequence :: seqTrace reg (stepDispatch reg st (dispatchMsg f.1 f.2.1 f.2.2)) fs

/-- The heartbeat frame written on Discord.py line 172: opcode 1 with the
stored sequence as its d field. -/
def heartbeatFramePayload (st : DiscordState) : Int × Option Int :=
  (1, st.sequence)

/-- Discord.py lines 204-211, the consumer while loop run sequentially:
handles each (time, message) pair while the connected flag holds, exiting
as soon as it is false; returns the final state and all queued tasks. -/
def consumerLoop (reg : Registry) :
    DiscordState → List (Nat × GatewayMessage) → DiscordState × List (Callback × Event)
  | st, [] => (st, [])
  | st, (now, m) :: rest =>
      if st.connected then
        let out := handle_gateway_message reg now st m
        let tail := consumerLoop reg out.1 rest
        (tail.1, out.2 ++ tail.2)
      else (st, [])

/-- Discord.py lines 164-179, the body of _heartbeat on a given list of
tick times (in time units, i.e. seconds): with interval
heartbeat_interval / 1000 time units and last send time last, a tick at
time t sends exactly when t - last is at least interval - 1; sending
resets last to t. Returns the send times. -/
def heartbeatRun (intervalUnits : ℚ) : ℚ → List ℚ → List ℚ
  | _, [] => []
  | last, t :: ts =>
      if intervalUnits - 1 ≤ t - last then t :: heartbeatRun intervalUnits t ts
      else heartbeatRun intervalUnits last ts

/-- The while-connected guard of the heartbeat loop (Discord.py line 167)
wrapped around heartbeatRun: with the connected flag false the loop body
never runs and no heartbeat is sent. -/
def heartbeatLoop (connected : Bool) (intervalUnits last : ℚ) (ticks : List ℚ) : List ℚ :=
  if connected then heartbeatRun intervalUnits last ticks else []

/-- Tick times 0, 1, ..., n-1: the once-per-time-unit schedule produced
by checking, then sleeping one unit (Discord.py line 179). -/
def unitTicks (n : Nat) : List ℚ :=
  (List.range n).map (fun i => (i : ℚ))

/-- Outcome of one call of socket.recv() inside _read_socket: a string
chunk, an SSLError with errno 2 (incomplete TLS record), a socket error
errno 11 (nothing buffered), a socket error errno 104 (reset by peer), or
a WebSocketConnectionClosedException. -/
inductive RecvResult where
  | chunk (s : String) : RecvResult
  | sslWantRead : RecvResult
  | eagain : RecvResult
  | reset : RecvResult
  | closed : RecvResult

/-- What _read_socket returns to its caller: a parsed frame, the Python
value None, or the model ran out of recv results (the loop would keep
polling). -/
inductive ReadResult where
  | frame (m : GatewayMessage) : ReadResult
  | nothing : ReadResult
  | noInput : ReadResult

/-- Result of a _read_socket call: what it returns, the connected flag
afterwards, and how many warnings it logged. -/
structure ReadOut where
  result : ReadResult
  connected : Bool
  warnings : Nat

/-- Discord.py lines 233-272, _read_socket, parameterised by the
json.loads parse function (none models ValueError). The buffer data is a
local variable, so any buffered bytes are discarded whenever the function
returns. A parse failure hits the except-ValueError-continue branch: it
is treated exactly like an incomplete frame and the loop keeps reading.
A reset while connected logs one warning, clears the flag and returns
None; a closed socket while connected logs one warning, clears the flag
and falls through to the next loop iteration (that except branch has no
return statement). -/
def read_socket (parse : String → Option GatewayMessage) :
    Bool → String → List RecvResult → ReadOut
  | conn, _, [] => { result := ReadResult.noInput, connected := conn, warnings := 0 }
  | conn, data, r :: rest =>
      match r with
      | RecvResult.chunk s =>
          let data' := data ++ s
          if data' = "" then
            { result := ReadResult.nothing, connected := conn, warnings := 0 }
          else
            match parse data'.trimRight with
            | Option.some m =>
                { result := ReadResult.frame m, connected := conn, warnings := 0 }
            | Option.none => read_socket parse conn data' rest
      | RecvResult.sslWantRead =>
          { result := ReadResult.nothing, connected := conn, warnings := 0 }
      | RecvResult.eagain =>
          { result := ReadResult.nothing, connected := conn, warnings := 0 }
      | RecvResult.reset =>
          if conn then
            { result := ReadResult.nothing, connected := false, warnings := 1 }
          else
            { result := ReadResult.nothing, connected := conn, warnings := 0 }
      | RecvResult.closed =>
          if conn then
            let out := read_socket parse false data rest
            { out with warnings := out.warnings + 1 }
          else
            { result := ReadResult.nothing, connected := conn, warnings := 0 }

/-- The InvalidSession frame, opcode 9 (its s, t and d fields are null
on the wire). -/
def invalidSessionMsg : GatewayMessage :=
  { op := 9, s := Option.none, t := Option.none, d := PyVal.pynone }

/-- A concrete two-frame Dispatch run used as a witness input (dict
payloads, as Dispatch frames carry on the wire). -/
def c2Frames : List (String × Int × PyVal) :=
  [("MESSAGE_CREATE", 3, PyVal.dict []), ("READY", 5, PyVal.dict [])]

/-! Helper lemmas shared by the claim theorems. -/

/-- What the dispatch loop iterates over equals the current subscriber
list for the key, when the reference was created in the same registry
state. -/
theorem derefSubs_eventSubs (reg : Registry) (k : String) :
    derefSubs reg (eventSubs reg k) = resolveList reg k := by
  unfold eventSubs resolveList
  cases lookupIdx reg k <;> rfl

theorem convertList_eq_map (xs : List PyVal) : convertList xs = xs.map convert := by
  induction xs with
  | nil => rfl
  | cons x xs ih => simp [convertList, ih]

theorem convertFields_eq_map (fs : List (String × PyVal)) :
    convertFields fs = fs.map (fun p => (p.1, convert p.2)) := by
  induction fs with
  | nil => rfl
  | cons p fs ih => simp [convertFields, ih]

theorem find?_map_fields (key : String) (f : PyVal → PyVal) :
    ∀ fs : List (String × PyVal),
      ((fs.map (fun p => (p.1, f p.2))).find? (fun p => p.1 = key)).map (fun p => p.2)
        = ((fs.find? (fun p => p.1 = key)).map (fun p => p.2)).map f := by
  intro fs
  induction fs with
  | nil => rfl
  | cons p fs ih =>
      by_cases hk : p.1 = key
      · rw [List.map_cons, List.find?_cons_of_pos _ (by simpa using hk),
          List.find?_cons_of_pos _ (by simpa using hk)]
        rfl
      · rw [List.map_cons, List.find?_cons_of_neg _ (by simpa using hk),
          List.find?_cons_of_neg _ (by simpa using hk)]
        exact ih

/-- subscribe preserves well-formedness of the registry. -/
theorem WFr_subscribe (reg : Registry) (k : String) (cb : Callback)
    (h : WFr reg) : WFr (subscribe reg k cb) := by
  unfold subscribe
  cases hl : lookupIdx reg k with
  | none =>
      intro p hp
      simp only at hp
      rcases List.mem_append.mp hp with h1 | h1
      · have := h p h1
        simp only [List.length_append, List.length_cons, List.length_nil]
        omega
      · simp only [List.mem_singleton] at h1
        subst h1
        simp only [List.length_append, List.length_cons, List.length_nil]
        omega
  | some i =>
      intro p hp
      simp only at hp
      have := h p hp
      simpa using this

/-- If the key is present, the table entry found is an actual member of
the table with that key. -/
theorem lookupIdx_mem (reg : Registry) (k : String) (i : Nat)
    (h : lookupIdx reg k = Option.some i) : (k, i) ∈ reg.table := by
  unfold lookupIdx at h
  cases hf : reg.table.find? (fun p => p.1 = k) with
  | none => rw [hf] at h; simp at h
  | some p =>
      rw [hf] at h
      have h2 : p.2 = i := by simpa using h
      have hkey : p.1 = k := by simpa using List.find?_some hf
      have hmem := List.mem_of_find?_eq_some hf
      have hp : p = (k, i) := by
        cases p with
        | mk a b =>
            have e1 : a = k := hkey
            have e2 : b = i := h2
            rw [e1, e2]
      rw [hp] at hmem
      exact hmem

/-- Reading a heap cell just written. -/
theorem cellGet_set_self (heap : List (List Callback)) (i : Nat) (x : List Callback)
    (hi : i < heap.length) : cellGet (heap.set i x) i = x := by
  unfold cellGet
  rw [List.getD_eq_getElem?_getD, List.getElem?_set_self (by simpa using hi)]
  rfl

/-- Reading the cell appended at the end of the heap. -/
theorem cellGet_append_last (heap : List (List Callback)) (x : List Callback) :
    cellGet (heap ++ [x]) heap.length = x := by
  unfold cellGet
  rw [List.getD_eq_getElem?_getD, List.getElem?_append_right (Nat.le_refl _)]
  simp

/-- A heap cell holding a member is in range (an out-of-range getD is the
empty fallback). -/
theorem cellGet_mem_lt (heap : List (List Callback)) (i : Nat) (cb : Callback)
    (h : cb ∈ cellGet heap i) : i < heap.length := by
  by_contra hge
  have hnone : heap[i]? = Option.none := by
    rw [List.getElem?_eq_none_iff]
    omega
  unfold cellGet at h
  rw [List.getD_eq_getElem?_getD, hnone] at h
  simp at h

/-- Unfolding resolveList when the key is absent. -/
theorem resolveList_eq_none (reg : Registry) (k : String)
    (hl : lookupIdx reg k = Option.none) : resolveList reg k = [] := by
  unfold resolveList
  rw [hl]

/-- Unfolding resolveList when the key is present at cell i. -/
theorem resolveList_eq_some (reg : Registry) (k : String) (i : Nat)
    (hl : lookupIdx reg k = Option.some i) : resolveList reg k = cellGet reg.heap i := by
  unfold resolveList
  rw [hl]

/-- Unfolding unsubscribe when the key is absent. -/
theorem unsubscribe_eq_none (reg : Registry) (k : String) (cb : Callback)
    (hl : lookupIdx reg k = Option.none) : unsubscribe reg k cb = Except.ok reg := by
  unfold unsubscribe
  rw [hl]

/-- Unfolding unsubscribe when the key is present at cell i. -/
theorem unsubscribe_eq_some (reg : Registry) (k : String) (cb : Callback) (i : Nat)
    (hl : lookupIdx reg k = Option.some i) :
    unsubscribe reg k cb =
      if cb ∈ cellGet reg.heap i then
        Except.ok { heap := reg.heap.set i ((cellGet reg.heap i).erase cb), table := reg.table }
      else Except.error "ValueError: list.remove(x): x not in list" := by
  unfold unsubscribe
  rw [hl]

/-- Effect of a subscribe on the resolved list of its own key: the
callback is appended at the end (on a well-formed registry). -/
theorem resolveList_subscribe_self (reg : Registry) (k : String) (cb : Callback)
    (hWF : WFr reg) :
    resolveList (subscribe reg k cb) k = resolveList reg k ++ [cb] := by
  cases hl : lookupIdx reg k with
  | none =>
      have hfind : reg.table.find? (fun p => p.1 = k) = Option.none := by
        unfold lookupIdx at hl
        cases hf : reg.table.find? (fun p => p.1 = k) with
        | none => rfl
        | some p => rw [hf] at hl; simp at hl
      have hsub : subscribe reg k cb
          = { heap := reg.heap ++ [[cb]], table := reg.table ++ [(k, reg.heap.length)] } := by
        unfold subscribe; rw [hl]
      have hres0 : resolveList reg k = [] := by
        unfold resolveList; rw [hl]
      have hl2 : lookupIdx
          ({ heap := reg.heap ++ [[cb]], table := reg.table ++ [(k, reg.heap.length)] } : Registry)
          k = Option.some reg.heap.length := by
        unfold lookupIdx
        simp only [List.find?_append, hfind, Option.none_or]
        rw [List.find?_cons_of_pos _ (by simp)]
        rfl
      rw [hsub, hres0, List.nil_append]
      unfold resolveList
      rw [hl2]
      exact cellGet_append_last reg.heap [cb]
  | some i =>
      have hmem := lookupIdx_mem reg k i hl
      have hi : i < reg.heap.length := hWF (k, i) hmem
      have hsub : subscribe reg k cb
          = { heap := reg.heap.set i (cellGet reg.heap i ++ [cb]), table := reg.table } := by
        unfold subscribe; rw [hl]
      have hres : resolveList reg k = cellGet reg.heap i := by
        unfold resolveList; rw [hl]
      have hl2 : lookupIdx
          ({ heap := reg.heap.set i (cellGet reg.heap i ++ [cb]), table := reg.table } : Registry)
          k = Option.some i := hl
      rw [hsub, hres]
      unfold resolveList
      rw [hl2]
      exact cellGet_set_self reg.heap i (cellGet reg.heap i ++ [cb]) hi

/-- Resolving after a sequence of subscribes to one key appends the
callbacks in subscription order. -/
theorem resolveList_subscribeAll (k : String) (cbs : List Callback) :
    ∀ reg : Registry, WFr reg →
      resolveList (subscribeAll reg k cbs) k = resolveList reg k ++ cbs := by
  induction cbs with
  | nil => intro reg _; simp [subscribeAll]
  | cons c cs ih =>
      intro reg hWF
      have h1 : subscribeAll reg k (c :: cs) = subscribeAll (subscribe reg k c) k cs := rfl
      rw [h1, ih (subscribe reg k c) (WFr_subscribe reg k c hWF),
        resolveList_subscribe_self reg k c hWF]
      simp

/-- The handler never sets the connected flag: once false it stays
false under any further gateway message. -/
theorem handle_preserves_disconnected (reg : Registry) (now : Nat)
    (st : DiscordState) (m : GatewayMessage) (h : st.connected = false) :
    ((handle_gateway_message reg now st m).1).connected = false := by
  unfold handle_gateway_message
  by_cases h0 : m.op = 0
  · simp only [h0, if_true]
    cases from_message reg m <;> simpa using h
  · by_cases h9 : m.op = 9
    · simp [h0, h9]
    · by_cases h11 : m.op = 11
      · simp [h0, h9, h11, h]
      · simp [h0, h9, h11, h]

/-- With the connected flag down the consumer while loop exits at once,
handling nothing and queueing nothing. -/
theorem consumerLoop_disconnected (reg : Registry) (st : DiscordState)
    (msgs : List (Nat × GatewayMessage)) (h : st.connected = false) :
    consumerLoop reg st msgs = (st, []) := by
  cases msgs with
  | nil => rfl
  | cons p rest =>
      cases p with
      | mk now m => simp [consumerLoop, h]

/-- Spacing soundness of the heartbeat loop: starting from send time
last, consecutive send times (and the first send after last) are at
least intervalUnits - 1 apart; and every send happens at a tick. -/
theorem heartbeatRun_sound (iv : ℚ) :
    ∀ (ticks : List ℚ) (last : ℚ),
      List.Chain' (fun a b => iv - 1 ≤ b - a) (last :: heartbeatRun iv last ticks)
      ∧ ∀ t ∈ heartbeatRun iv last ticks, t ∈ ticks := by
  intro ticks
  induction ticks with
  | nil => intro last; exact ⟨List.chain'_singleton last, by intro t ht; simp [heartbeatRun] at ht⟩
  | cons t ts ih =>
      intro last
      unfold heartbeatRun
      by_cases hc : iv - 1 ≤ t - last
      · simp only [hc, if_true]
        refine ⟨List.chain'_cons.mpr ⟨hc, (ih t).1⟩, ?_⟩
        intro x hx
        rcases List.mem_cons.mp hx with h1 | h1
        · exact List.mem_cons.mpr (Or.inl h1)
        · exact List.mem_cons.mpr (Or.inr ((ih t).2 x h1))
      · simp only [hc, if_false]
        refine ⟨(ih last).1, ?_⟩
        intro x hx
        exact List.mem_cons.mpr (Or.inr ((ih last).2 x hx))

/-- The stored sequence after one successfully decoded Dispatch frame
(known event name, dict payload) is that frame's sequence. -/
theorem stepDispatch_sequence (reg : Registry) (st : DiscordState)
    (t : String) (s : Int) (fs : List (String × PyVal)) (ht : t ∈ eventsNames) :
    (stepDispatch reg st (dispatchMsg t s (PyVal.dict fs))).sequence = Option.some s := by
  simp [stepDispatch, handle_gateway_message, dispatchMsg, from_message, ht]

/-- The trace of stored sequence values over a run of well-named
dict-payload Dispatch frames is the initial value followed by the frame
sequences. -/
theorem seqTrace_eq (reg : Registry) :
    ∀ (frames : List (String × Int × PyVal)) (st : DiscordState),
      (∀ f ∈ frames, f.1 ∈ eventsNames) →
      (∀ f ∈ frames, ∃ fs, f.2.2 = PyVal.dict fs) →
      seqTrace reg st frames
        = st.sequence :: frames.map (fun f => Option.some f.2.1) := by
  intro frames
  induction frames with
  | nil => intro st _ _; rfl
  | cons f fs ih =>
      intro st hv hp
      have hf : f.1 ∈ eventsNames := hv f (List.mem_cons_self f fs)
      have hfs : ∀ g ∈ fs, g.1 ∈ eventsNames := fun g hg => hv g (List.mem_cons_of_mem f hg)
      have hps : ∀ g ∈ fs, ∃ gs, g.2.2 = PyVal.dict gs :=
        fun g hg => hp g (List.mem_cons_of_mem f hg)
      obtain ⟨ds, hds⟩ := hp f (List.mem_cons_self f fs)
      have hstep : (stepDispatch reg st (dispatchMsg f.1 f.2.1 f.2.2)).sequence
          = Option.some f.2.1 := by
        rw [hds]
        exact stepDispatch_sequence reg st f.1 f.2.1 ds hf
      calc seqTrace reg st (f :: fs)
      _ = st.sequence :: seqTrace reg (stepDispatch reg st (dispatchMsg f.1 f.2.1 f.2.2)) fs := rfl
      _ = st.sequence :: (stepDispatch reg st (dispatchMsg f.1 f.2.1 f.2.2)).sequence
            :: fs.map (fun g => Option.some g.2.1) := by
            rw [ih (stepDispatch reg st (dispatchMsg f.1 f.2.1 f.2.2)) hfs hps]
      _ = st.sequence :: (f :: fs).map (fun g => Option.some g.2.1) := by
            rw [hstep]; rfl

/-- The last entry of the sequence trace is the final stored sequence. -/
theorem seqTrace_getLast (reg : Registry) :
    ∀ (frames : List (String × Int × PyVal)) (st : DiscordState),
      (seqTrace reg st frames).getLast?
        = Option.some (processFrames reg st frames).sequence := by
  intro frames
  induction frames with
  | nil => intro st; rfl
  | cons f fs ih =>
      intro st
      have h1 : seqTrace reg st (f :: fs)
          = st.sequence :: seqTrace reg (stepDispatch reg st (dispatchMsg f.1 f.2.1 f.2.2)) fs := rfl
      rw [h1, List.getLast?_cons, ih]
      rfl

/-- Full effect of one Dispatch frame with a known event name and a dict
payload (the decodable shape): the stored sequence is replaced and one
task per currently resolved callback is queued, each carrying the same
decoded event. -/
theorem handle_dispatch_eq (reg : Registry) (now : Nat) (st : DiscordState)
    (t : String) (s : Int) (fs : List (String × PyVal)) (ht : t ∈ eventsNames) :
    handle_gateway_message reg now st (dispatchMsg t s (PyVal.dict fs))
      = ({ st with sequence := Option.some s },
         (resolveList reg t).map (fun c =>
           (c, { payload := to_object (PyVal.dict fs), name := t, sequence := Option.some s,
                 subscriptions := eventSubs reg t }))) := by
  unfold handle_gateway_message dispatchMsg from_message
  simp [ht, derefSubs_eventSubs]

/-- After a run of well-named dict-payload Dispatch frames ending with
sequence s, the stored sequence is s. -/
theorem processFrames_sequence (reg : Registry) :
    ∀ (frames : List (String × Int × PyVal)) (st : DiscordState) (s : Int),
      (∀ f ∈ frames, f.1 ∈ eventsNames) →
      (∀ f ∈ frames, ∃ fs, f.2.2 = PyVal.dict fs) →
      (frames.map (fun f => f.2.1)).getLast? = Option.some s →
      (processFrames reg st frames).sequence = Option.some s := by
  intro frames
  induction frames with
  | nil =>
      intro st s _ _ hs
      simp at hs
  | cons f fs ih =>
      intro st s hv hp hs
      obtain ⟨ds, hds⟩ := hp f (List.mem_cons_self f fs)
      have hstep : (stepDispatch reg st (dispatchMsg f.1 f.2.1 f.2.2)).sequence
          = Option.some f.2.1 := by
        rw [hds]
        exact stepDispatch_sequence reg st f.1 f.2.1 ds (hv f (List.mem_cons_self f fs))
      cases fs with
      | nil =>
          have hse : s = f.2.1 := by simpa using hs.symm
          show (processFrames reg (stepDispatch reg st (dispatchMsg f.1 f.2.1 f.2.2)) []).sequence
            = Option.some s
          rw [hse]
          exact hstep
      | cons f2 fs2 =>
          have hs2 : ((f2 :: fs2).map (fun g => g.2.1)).getLast? = Option.some s := by
            simpa using hs
          have hv2 : ∀ g ∈ f2 :: fs2, g.1 ∈ eventsNames :=
            fun g hg => hv g (List.mem_cons_of_mem f hg)
          have hp2 : ∀ g ∈ f2 :: fs2, ∃ gs, g.2.2 = PyVal.dict gs :=
            fun g hg => hp g (List.mem_cons_of_mem f hg)
          exact ih (stepDispatch reg st (dispatchMsg f.1 f.2.1 f.2.2)) s hv2 hp2 hs2

/-! Claim theorems. -/

/-- Claim C10: event.to_object is the identity on every value that is
neither a dict nor a list; it maps a list to the list of its element-wise
conversions, preserving length and order; and it maps a dict to an object
with exactly one attribute per key, bound to the converted value, with
the key sequence preserved and attribute lookup agreeing with converted
dict lookup. -/
theorem C10_toObject :
    (∀ v, notDictOrList v = true → to_object v = v)
    ∧ (∀ xs, to_object (PyVal.list xs) = PyVal.list (xs.map to_object)
        ∧ (xs.map to_object).length = xs.length)
    ∧ (∀ fs, to_object (PyVal.dict fs) = PyVal.obj (fs.map (fun p => (p.1, to_object p.2)))
        ∧ (fs.map (fun p => (p.1, to_object p.2))).map Prod.fst = fs.map Prod.fst
        ∧ ∀ key, attrLookup key (to_object (PyVal.dict fs))
            = (dictLookup key fs).map to_object) := by
  have hdict : ∀ fs, to_object (PyVal.dict fs)
      = PyVal.obj (fs.map (fun p => (p.1, to_object p.2))) := by
    intro fs
    show convert (PyVal.dict fs) = PyVal.obj (fs.map (fun p => (p.1, convert p.2)))
    rw [show convert (PyVal.dict fs) = PyVal.obj (convertFields fs) from rfl,
      convertFields_eq_map]
  refine ⟨?_, ?_, ?_⟩
  · intro v hv
    cases v with
    | list xs => simp [notDictOrList] at hv
    | dict fs => simp [notDictOrList] at hv
    | pynone => rfl
    | bool b => rfl
    | int n => rfl
    | str s => rfl
    | obj attrs => rfl
  · intro xs
    constructor
    · show convert (PyVal.list xs) = PyVal.list (xs.map convert)
      rw [show convert (PyVal.list xs) = PyVal.list (convertList xs) from rfl,
        convertList_eq_map]
    · simp
  · intro fs
    refine ⟨hdict fs, ?_, ?_⟩
    · induction fs with
      | nil => rfl
      | cons p ps ih => simp only [List.map_cons, ih]
    · intro key
      rw [hdict fs]
      show ((fs.map (fun p => (p.1, convert p.2))).find? (fun p => p.1 = key)).map
          (fun p => p.2) = ((fs.find? (fun p => p.1 = key)).map (fun p => p.2)).map convert
      exact find?_map_fields key convert fs

/-- Claim C10 witness: the identity clause at a concrete scalar. -/
theorem C10_toObject_witness :
    notDictOrList (PyVal.str "hi") = true ∧ to_object (PyVal.str "hi") = PyVal.str "hi" :=
  ⟨rfl, C10_toObject.1 (PyVal.str "hi") rfl⟩

/-- Claim C4: the code is wrong. The spec asserts the stored latency is
the full elapsed time in milliseconds (now minus the last heartbeat send
time) for all durations, including those of one second or more; the code
computes round(timedelta.microseconds / 1000), which keeps only the
sub-second component. At an elapsed round trip of 1.5 seconds (heartbeat
sent at monotonic 0, ack processed at 1500000 microseconds) the code
stores 500 ms where the specified value is 1500 ms. -/
theorem C4_timedeltaBug :
    pingFromElapsed 1500000 = 500
    ∧ specFullElapsedMs 1500000 = 1500
    ∧ pingFromElapsed 1500000 ≠ specFullElapsedMs 1500000
    ∧ ((handle_gateway_message emptyRegistry 1500000
        { connected := true, ping := -1, sequence := Option.some 0, pingStart := 0 }
        { op := 11, s := Option.none, t := Option.none, d := PyVal.pynone }).1).ping = 500 := by
  refine ⟨by decide, by decide, by decide, by decide⟩

/-- Claim C5 counterexample: the claim says unsubscribe is a no-op
(returns without error) whenever the callback is absent, including when
the key exists but its list does not contain the callback; but with one
callback 1 registered for MESSAGE_CREATE, unsubscribing the absent
callback 2 hits list.remove and raises ValueError. -/
theorem C5_counterexample :
    unsubscribe (subscribe emptyRegistry "MESSAGE_CREATE" 1) "MESSAGE_CREATE" 2
      = Except.error "ValueError: list.remove(x): x not in list" := by
  rfl

/-- Claim C5 amended: unsubscribe(eventType, callback) is a no-op
(returns without error, registry unchanged) when the key has no list at
all; when the key exists and the list contains the callback it removes
the first matching callback in place; but when the key exists and its
list does not contain the callback, it raises ValueError (list.remove). -/
theorem C5_amended (reg : Registry) (k : String) (cb : Callback) :
    (lookupIdx reg k = Option.none → unsubscribe reg k cb = Except.ok reg)
    ∧ (∀ i, lookupIdx reg k = Option.some i → cb ∉ cellGet reg.heap i →
        unsubscribe reg k cb = Except.error "ValueError: list.remove(x): x not in list")
    ∧ (∀ reg', unsubscribe reg k cb = Except.ok reg' →
        resolveList reg' k = (resolveList reg k).erase cb ∧ reg'.table = reg.table) := by
  refine ⟨?_, ?_, ?_⟩
  · intro hl
    exact unsubscribe_eq_none reg k cb hl
  · intro i hl hmem
    rw [unsubscribe_eq_some reg k cb i hl, if_neg hmem]
  · intro reg' h
    cases hl : lookupIdx reg k with
    | none =>
        rw [unsubscribe_eq_none reg k cb hl] at h
        injection h with h'
        subst h'
        have hres : resolveList reg k = [] := by unfold resolveList; rw [hl]
        rw [hres]
        exact ⟨rfl, rfl⟩
    | some i =>
        rw [unsubscribe_eq_some reg k cb i hl] at h
        by_cases hc : cb ∈ cellGet reg.heap i
        · rw [if_pos hc] at h
          injection h with h'
          have hi : i < reg.heap.length := cellGet_mem_lt reg.heap i cb hc
          have hl2 : lookupIdx reg' k = Option.some i := by
            rw [← h']; exact hl
          have htab : reg'.table = reg.table := by rw [← h']
          have hheap : reg'.heap = reg.heap.set i ((cellGet reg.heap i).erase cb) := by
            rw [← h']
          constructor
          · rw [resolveList_eq_some reg' k i hl2, resolveList_eq_some reg k i hl, hheap,
              cellGet_set_self reg.heap i ((cellGet reg.heap i).erase cb) hi]
          · exact htab
        · rw [if_neg hc] at h
          simp at h

/-- Claim C5 amended witness: unsubscribing the only registered callback
from MESSAGE_CREATE succeeds and leaves the empty list for that key. -/
theorem C5_amended_witness :
    unsubscribe (subscribe emptyRegistry "MESSAGE_CREATE" 1) "MESSAGE_CREATE" 1
      = Except.ok ({ heap := [[]], table := [("MESSAGE_CREATE", 0)] } : Registry)
    ∧ resolveList ({ heap := [[]], table := [("MESSAGE_CREATE", 0)] } : Registry)
        "MESSAGE_CREATE"
      = (resolveList (subscribe emptyRegistry "MESSAGE_CREATE" 1) "MESSAGE_CREATE").erase 1 :=
  ⟨rfl,
   ((C5_amended (subscribe emptyRegistry "MESSAGE_CREATE" 1) "MESSAGE_CREATE" 1).2.2
     ({ heap := [[]], table := [("MESSAGE_CREATE", 0)] } : Registry) rfl).1⟩

/-- Claim C1 counterexample: from_message does not snapshot the
subscriber list, it stores the live list reference. With callbacks 1 and
2 registered for MESSAGE_CREATE, an event decoded before
unsubscribe(MESSAGE_CREATE, 2) iterates [1, 2]; after the unsubscribe
returns, the same in-flight event iterates only [1] — mutating the
registry after decode changed that event's subscriber sequence. -/
theorem C1_counterexample :
    derefSubs (subscribe (subscribe emptyRegistry "MESSAGE_CREATE" 1) "MESSAGE_CREATE" 2)
        (eventSubs (subscribe (subscribe emptyRegistry "MESSAGE_CREATE" 1) "MESSAGE_CREATE" 2)
          "MESSAGE_CREATE") = [1, 2]
    ∧ unsubscribe (subscribe (subscribe emptyRegistry "MESSAGE_CREATE" 1) "MESSAGE_CREATE" 2)
        "MESSAGE_CREATE" 2
        = Except.ok ({ heap := [[1]], table := [("MESSAGE_CREATE", 0)] } : Registry)
    ∧ derefSubs ({ heap := [[1]], table := [("MESSAGE_CREATE", 0)] } : Registry)
        (eventSubs (subscribe (subscribe emptyRegistry "MESSAGE_CREATE" 1) "MESSAGE_CREATE" 2)
          "MESSAGE_CREATE") = [1]
    ∧ ([1] : List Callback) ≠ [1, 2] := by
  refine ⟨rfl, rfl, rfl, by decide⟩

/-- Claim C1 amended: from_message stores a live reference to the
registry's list for the event type (a fresh empty list when the key is
absent), not a snapshot. After unsubscribe(eventType, callback) returns
successfully, provided the callback was registered at most once for that
type, a subsequently decoded event for that type never delivers to that
callback; and an event decoded before the unsubscribe sees the mutation
too: its subscriber sequence always equals the registry's current list. -/
theorem C1_amended (reg reg' : Registry) (k : String) (cb : Callback)
    (h : unsubscribe reg k cb = Except.ok reg')
    (hcount : (resolveList reg k).count cb ≤ 1) :
    cb ∉ resolveList reg' k
    ∧ derefSubs reg' (eventSubs reg k) = resolveList reg' k
    ∧ derefSubs reg' (eventSubs reg' k) = resolveList reg' k := by
  cases hl : lookupIdx reg k with
  | none =>
      rw [unsubscribe_eq_none reg k cb hl] at h
      injection h with h'
      subst h'
      have hres : resolveList reg k = [] := by unfold resolveList; rw [hl]
      have hsubs : eventSubs reg k = SubsRef.fresh [] := by unfold eventSubs; rw [hl]
      refine ⟨?_, ?_, derefSubs_eventSubs reg k⟩
      · rw [hres]; simp
      · rw [hsubs, hres]; rfl
  | some i =>
      rw [unsubscribe_eq_some reg k cb i hl] at h
      by_cases hc : cb ∈ cellGet reg.heap i
      · rw [if_pos hc] at h
        injection h with h'
        have hi : i < reg.heap.length := cellGet_mem_lt reg.heap i cb hc
        have hres : resolveList reg k = cellGet reg.heap i := resolveList_eq_some reg k i hl
        have hl2 : lookupIdx reg' k = Option.some i := by rw [← h']; exact hl
        have hheap : reg'.heap = reg.heap.set i ((cellGet reg.heap i).erase cb) := by
          rw [← h']
        have hres' : resolveList reg' k = (cellGet reg.heap i).erase cb := by
          rw [resolveList_eq_some reg' k i hl2, hheap]
          exact cellGet_set_self reg.heap i ((cellGet reg.heap i).erase cb) hi
        have hcount1 : (cellGet reg.heap i).count cb = 1 := by
          rw [hres] at hcount
          have : 0 < (cellGet reg.heap i).count cb := List.count_pos_iff.mpr hc
          omega
        refine ⟨?_, ?_, derefSubs_eventSubs reg' k⟩
        · rw [hres']
          have : ((cellGet reg.heap i).erase cb).count cb = 0 := by
            rw [List.count_erase_self, hcount1]
          exact List.count_eq_zero.mp this
        · have hsubs : eventSubs reg k = SubsRef.ptr i := by unfold eventSubs; rw [hl]
          rw [hsubs]
          show cellGet reg'.heap i = resolveList reg' k
          rw [resolveList_eq_some reg' k i hl2]
      · rw [if_neg hc] at h
        simp at h

/-- Claim C1 amended witness. -/
theorem C1_amended_witness :
    unsubscribe ({ heap := [[1, 2]], table := [("MESSAGE_CREATE", 0)] } : Registry)
        "MESSAGE_CREATE" 2
      = Except.ok ({ heap := [[1]], table := [("MESSAGE_CREATE", 0)] } : Registry)
    ∧ (resolveList ({ heap := [[1, 2]], table := [("MESSAGE_CREATE", 0)] } : Registry)
        "MESSAGE_CREATE").count 2 ≤ 1
    ∧ 2 ∉ resolveList ({ heap := [[1]], table := [("MESSAGE_CREATE", 0)] } : Registry)
        "MESSAGE_CREATE" :=
  ⟨rfl, by decide,
   (C1_amended ({ heap := [[1, 2]], table := [("MESSAGE_CREATE", 0)] } : Registry)
     ({ heap := [[1]], table := [("MESSAGE_CREATE", 0)] } : Registry)
     "MESSAGE_CREATE" 2 rfl (by decide)).1⟩

/-- Claim C9: subscribe appends to the ordered list of the key, creating
a one-element list on first use; insertion order is preserved for any
number of subscribes; subscribing cbA then cbB for MESSAGE_CREATE on the
empty registry resolves to [cbA, cbB]. -/
theorem C9_subscribeOrder (reg : Registry) (k : String) (cbs : List Callback)
    (cbA cbB : Callback) (hWF : WFr reg) :
    resolveList (subscribeAll reg k cbs) k = resolveList reg k ++ cbs
    ∧ resolveList (subscribe (subscribe emptyRegistry "MESSAGE_CREATE" cbA)
        "MESSAGE_CREATE" cbB) "MESSAGE_CREATE" = [cbA, cbB] := by
  constructor
  · exact resolveList_subscribeAll k cbs reg hWF
  · have h0 : WFr emptyRegistry := by
      intro p hp
      simp [emptyRegistry] at hp
    have h1 := resolveList_subscribe_self emptyRegistry "MESSAGE_CREATE" cbA h0
    have h2 := resolveList_subscribe_self (subscribe emptyRegistry "MESSAGE_CREATE" cbA)
      "MESSAGE_CREATE" cbB (WFr_subscribe emptyRegistry "MESSAGE_CREATE" cbA h0)
    rw [h2, h1]
    rfl

/-- Claim C9 witness. -/
theorem C9_subscribeOrder_witness :
    WFr emptyRegistry
    ∧ resolveList (subscribeAll emptyRegistry "MESSAGE_CREATE" [4, 5]) "MESSAGE_CREATE"
      = resolveList emptyRegistry "MESSAGE_CREATE" ++ [4, 5] := by
  have h0 : WFr emptyRegistry := by
    intro p hp
    simp [emptyRegistry] at hp
  exact ⟨h0, (C9_subscribeOrder emptyRegistry "MESSAGE_CREATE" [4, 5] 1 2 h0).1⟩

/-- Claim C2: processing Dispatch frames in the order received (a
sequenced stream, so their sequence numbers are non-decreasing and
non-negative, and their payloads are dicts — the shape the decoder can
set attributes on, any other shape raising before the sequence update),
the stored sequence starts at 0 for a fresh session, always equals the
sequence of the most recently processed frame, is monotonically
non-decreasing over the session, and the heartbeat frame written
afterwards carries the stored sequence as its d field. -/
theorem C2_lastSequence (reg : Registry) (frames : List (String × Int × PyVal))
    (hvalid : ∀ f ∈ frames, f.1 ∈ eventsNames)
    (hpay : ∀ f ∈ frames, ∃ fs, f.2.2 = PyVal.dict fs)
    (hchain : List.Chain' (fun a b => a ≤ b) ((0 : Int) :: frames.map (fun f => f.2.1))) :
    initState.sequence = Option.some 0
    ∧ seqTrace reg initState frames
        = ((0 : Int) :: frames.map (fun f => f.2.1)).map Option.some
    ∧ List.Chain' (fun a b => a.getD 0 ≤ b.getD 0) (seqTrace reg initState frames)
    ∧ ∀ s : Int, (frames.map (fun f => f.2.1)).getLast? = Option.some s →
        (processFrames reg initState frames).sequence = Option.some s
        ∧ heartbeatFramePayload (processFrames reg initState frames) = (1, Option.some s) := by
  have htrace : seqTrace reg initState frames
      = ((0 : Int) :: frames.map (fun f => f.2.1)).map Option.some := by
    rw [seqTrace_eq reg frames initState hvalid hpay, List.map_cons, List.map_map]
    rfl
  refine ⟨rfl, htrace, ?_, ?_⟩
  · rw [htrace, List.chain'_map]
    simpa using hchain
  · intro s hs
    have hseq := processFrames_sequence reg frames initState s hvalid hpay hs
    refine ⟨hseq, ?_⟩
    unfold heartbeatFramePayload
    rw [hseq]

/-- Claim C2 witness: two dict-payload Dispatch frames with sequences 3
then 5. -/
theorem C2_lastSequence_witness :
    (∀ f ∈ c2Frames, f.1 ∈ eventsNames)
    ∧ (∀ f ∈ c2Frames, ∃ fs, f.2.2 = PyVal.dict fs)
    ∧ List.Chain' (fun a b => a ≤ b) ((0 : Int) :: c2Frames.map (fun f => f.2.1))
    ∧ (processFrames emptyRegistry initState c2Frames).sequence = Option.some 5 := by
  have hv : ∀ f ∈ c2Frames, f.1 ∈ eventsNames := by decide
  have hp : ∀ f ∈ c2Frames, ∃ fs, f.2.2 = PyVal.dict fs := by
    intro f hf
    simp only [c2Frames, List.mem_cons, List.not_mem_nil, or_false] at hf
    rcases hf with h | h <;> subst h <;> exact ⟨[], rfl⟩
  have hch : List.Chain' (fun a b => a ≤ b) ((0 : Int) :: c2Frames.map (fun f => f.2.1)) := by
    norm_num [c2Frames, List.chain'_cons]
  refine ⟨hv, hp, hch, ?_⟩
  exact ((C2_lastSequence emptyRegistry c2Frames hv hp hch).2.2.2 5 (by decide)).1

/-- Claim C3: a Dispatch frame with opcode 0, sequence 5, event name
MESSAGE_CREATE and payload content "hi", handled while exactly one
callback is subscribed for MESSAGE_CREATE, queues exactly one task whose
argument is an Event with sequence 5 and content attribute "hi", and the
stored sequence becomes 5; in general, for every decodable Dispatch
frame (known event name, dict payload), one task per resolved callback
is queued independently, all carrying the same event. -/
theorem C3_dispatchScenario (reg : Registry) (st : DiscordState) (now : Nat) (cb : Callback)
    (h : resolveList reg "MESSAGE_CREATE" = [cb]) :
    ((handle_gateway_message reg now st
        (dispatchMsg "MESSAGE_CREATE" 5 (PyVal.dict [("content", PyVal.str "hi")]))).1).sequence
      = Option.some 5
    ∧ (∃ e, (handle_gateway_message reg now st
          (dispatchMsg "MESSAGE_CREATE" 5 (PyVal.dict [("content", PyVal.str "hi")]))).2
        = [(cb, e)]
        ∧ e.sequence = Option.some 5
        ∧ attrLookup "content" e.payload = Option.some (PyVal.str "hi"))
    ∧ ∀ (t : String) (s : Int) (fs : List (String × PyVal)), t ∈ eventsNames →
        ∃ e2, (handle_gateway_message reg now st (dispatchMsg t s (PyVal.dict fs))).2
          = (resolveList reg t).map (fun c => (c, e2)) := by
  have hmc : "MESSAGE_CREATE" ∈ eventsNames := by decide
  have heq := handle_dispatch_eq reg now st "MESSAGE_CREATE" 5
    [("content", PyVal.str "hi")] hmc
  refine ⟨?_, ?_, ?_⟩
  · rw [heq]
  · refine ⟨⟨to_object (PyVal.dict [("content", PyVal.str "hi")]), "MESSAGE_CREATE",
      Option.some 5, eventSubs reg "MESSAGE_CREATE"⟩, ?_, rfl, rfl⟩
    rw [heq]
    show (resolveList reg "MESSAGE_CREATE").map _ = _
    rw [h]
    rfl
  · intro t s fs ht
    refine ⟨⟨to_object (PyVal.dict fs), t, Option.some s, eventSubs reg t⟩, ?_⟩
    rw [handle_dispatch_eq reg now st t s fs ht]

/-- Claim C3 witness: one subscriber (callback 7) for MESSAGE_CREATE. -/
theorem C3_dispatchScenario_witness :
    resolveList (subscribe emptyRegistry "MESSAGE_CREATE" 7) "MESSAGE_CREATE" = [7]
    ∧ ((handle_gateway_message (subscribe emptyRegistry "MESSAGE_CREATE" 7) 0 initState
        (dispatchMsg "MESSAGE_CREATE" 5 (PyVal.dict [("content", PyVal.str "hi")]))).1).sequence
      = Option.some 5 :=
  ⟨rfl, (C3_dispatchScenario (subscribe emptyRegistry "MESSAGE_CREATE" 7) initState 0 7 rfl).1⟩

set_option maxHeartbeats 1000000 in
/-- Claim C6 counterexample: with heartbeat_interval 41250 ms and the
loop ticking once per time unit from Ready at time 0, the first
heartbeat is sent at tick 41, which is not at or before 40.25 time
units as the claim asserts. -/
theorem C6_counterexample :
    (heartbeatRun ((41250 : ℚ) / 1000) 0 (unitTicks 42)).head? = Option.some 41
    ∧ ¬ ((41 : ℚ) ≤ 4025 / 100) := by
  constructor
  · have h : unitTicks 42 = (List.range 42).map (fun i => (i : ℚ)) := rfl
    rw [h]
    norm_num [heartbeatRun, List.range_succ]
  · norm_num

set_option maxHeartbeats 1000000 in
/-- Claim C6 amended: with the loop ticking once per time unit after
Ready and heartbeatIntervalMs 41250 (interval 41.25 time units), the
first heartbeat send occurs at tick 41 — at or before the full interval
41.25, not at or before 40.25; in general a tick sends exactly when the
elapsed time since the last send is at least interval minus 1 (also when
it exceeds the interval), so consecutive sends are at least interval
minus 1 apart and every send happens at a tick. -/
theorem C6_amended :
    (heartbeatRun ((41250 : ℚ) / 1000) 0 (unitTicks 42)).head? = Option.some 41
    ∧ (41 : ℚ) ≤ (41250 : ℚ) / 1000
    ∧ ∀ (iv last : ℚ) (ticks : List ℚ),
        List.Chain' (fun a b => iv - 1 ≤ b - a) (last :: heartbeatRun iv last ticks)
        ∧ ∀ t ∈ heartbeatRun iv last ticks, t ∈ ticks := by
  refine ⟨?_, by norm_num, ?_⟩
  · have h : unitTicks 42 = (List.range 42).map (fun i => (i : ℚ)) := rfl
    rw [h]
    norm_num [heartbeatRun, List.range_succ]
  · intro iv last ticks
    exact heartbeatRun_sound iv ticks last

/-- Claim C6 amended witness: the spacing property at a concrete run. -/
theorem C6_amended_witness :
    List.Chain' (fun a b => (2 : ℚ) - 1 ≤ b - a) (0 :: heartbeatRun 2 0 [1]) :=
  (C6_amended.2.2 2 0 [1]).1

/-- Claim C7 counterexample: a complete but unparseable frame is not
dropped with a logged warning; _read_socket treats the parse failure
exactly like an incomplete frame (the except-ValueError-continue
branch), logs nothing, and the outcome is indistinguishable from the
case in which no complete frame arrived at all. -/
theorem C7_counterexample :
    read_socket (fun _ => Option.none) true ""
        [RecvResult.chunk "notjson", RecvResult.sslWantRead]
      = { result := ReadResult.nothing, connected := true, warnings := 0 }
    ∧ read_socket (fun _ => Option.none) true "" [RecvResult.sslWantRead]
      = { result := ReadResult.nothing, connected := true, warnings := 0 } := by
  constructor <;> rfl

/-- Claim C7 amended: when the buffered data fails to parse, _read_socket
does not distinguish malformed from incomplete: it continues the read
loop treating the data as incomplete (no warning is logged); when the
next recv finds nothing available, it returns None to its caller with
zero warnings, the connected flag unchanged, and the buffered malformed
data discarded (the buffer is a local variable), leaving sequence and
latency untouched; the consumer loop then continues with the next frame. -/
theorem C7_amended (parse : String → Option GatewayMessage) (conn : Bool) (data s : String)
    (rest : List RecvResult)
    (hparse : parse ((data ++ s).trimRight) = Option.none)
    (hne : ¬ (data ++ s) = "") :
    read_socket parse conn data (RecvResult.chunk s :: rest)
      = read_socket parse conn (data ++ s) rest
    ∧ read_socket parse conn data [RecvResult.chunk s, RecvResult.sslWantRead]
      = { result := ReadResult.nothing, connected := conn, warnings := 0 } := by
  have hstep : ∀ rest2, read_socket parse conn data (RecvResult.chunk s :: rest2)
      = read_socket parse conn (data ++ s) rest2 := by
    intro rest2
    simp only [read_socket]
    rw [if_neg hne, hparse]
  refine ⟨hstep rest, ?_⟩
  rw [hstep [RecvResult.sslWantRead]]
  rfl

/-- Claim C7 amended witness. -/
theorem C7_amended_witness :
    ((fun (_ : String) => (Option.none : Option GatewayMessage)) (("" ++ "notjson").trimRight)
        = Option.none)
    ∧ ¬ ("" ++ "notjson") = ""
    ∧ read_socket (fun _ => Option.none) true ""
        [RecvResult.chunk "notjson", RecvResult.sslWantRead]
      = { result := ReadResult.nothing, connected := true, warnings := 0 } := by
  refine ⟨rfl, by decide, ?_⟩
  exact (C7_amended (fun _ => Option.none) true "" "notjson" [] rfl (by decide)).2

/-- Claim C8: handling an opcode 9 (InvalidSession) frame while
connected clears the connected flag; no later gateway message ever sets
it again; the consumer while loop exits immediately on its next guard
check, handling nothing further; and the heartbeat loop guard fails so
no heartbeat frame is ever sent again — both loops terminate, so
disconnect() joins them without hanging. -/
theorem C8_invalidSession (reg : Registry) (st : DiscordState) (now : Nat)
    (iv last : ℚ) (ticks : List ℚ) (msgs : List (Nat × GatewayMessage))
    (_hc : st.connected = true) :
    ((handle_gateway_message reg now st invalidSessionMsg).1).connected = false
    ∧ (∀ (now2 : Nat) (m : GatewayMessage),
        ((handle_gateway_message reg now2
            ((handle_gateway_message reg now st invalidSessionMsg).1) m).1).connected = false)
    ∧ consumerLoop reg ((handle_gateway_message reg now st invalidSessionMsg).1) msgs
        = ((handle_gateway_message reg now st invalidSessionMsg).1, [])
    ∧ heartbeatLoop ((handle_gateway_message reg now st invalidSessionMsg).1).connected
        iv last ticks = [] := by
  have h1 : ((handle_gateway_message reg now st invalidSessionMsg).1).connected = false := rfl
  refine ⟨h1, ?_, consumerLoop_disconnected reg _ msgs h1, ?_⟩
  · intro now2 m
    exact handle_preserves_disconnected reg now2 _ m h1
  · unfold heartbeatLoop
    rw [h1]
    rfl

/-- Claim C8 witness. -/
theorem C8_invalidSession_witness :
    ({ connected := true, ping := -1, sequence := Option.some 0, pingStart := 0 }
      : DiscordState).connected = true
    ∧ ((handle_gateway_message emptyRegistry 0
        { connected := true, ping := -1, sequence := Option.some 0, pingStart := 0 }
        invalidSessionMsg).1).connected = false :=
  ⟨rfl, (C8_invalidSession emptyRegistry
    { connected := true, ping := -1, sequence := Option.some 0, pingStart := 0 }
    0 0 0 [] [] rfl).1⟩

end Arcbot
